import Mathlib

/-!
Verification model of the Belo2022CryptoSwapper quote-pricing core:
`src/src/model/Swap.ts` (pricing walk, fee application, quote fields) and
`src/src/routes/Swapper.ts` (createSwapOrder response shape).

The TypeScript code performs all arithmetic with currency.js.  A currency.js
value is stored as an integer count of hundredths (`intValue`, "cents"):
`add`/`subtract` are exact on cents, while `multiply` and `divide` round the
result half-up (JS `Math.round`, half toward positive infinity) back to
cents.  The model below embeds values as that cent integer.
-/

namespace Swapper

/-- JS Math.round of the quotient num/den for den ≥ 0: the floor of
num/den + 1/2, i.e. (2*num + den) / (2*den); Int division is Euclidean,
which is the floor for a positive divisor.  den = 0 yields 0 here (JS
produces NaN or Infinity there; the engine only divides by the parsed
requested volume). -/
def jsRound (num den : Int) : Int := (2 * num + den) / (2 * den)

/-- A currency.js multiply of two cent values: round(a*b/100). -/
def cMul (a b : Int) : Int := jsRound (a * b) 100

/-- A currency.js divide of two cent values: round(100*a/b). -/
def cDiv (a b : Int) : Int := jsRound (100 * a) b

/-- Value of a string of decimal digits. -/
def digitsToNat (l : List Char) : Nat :=
  l.foldl (fun acc c => acc * 10 + (c.toNat - 48)) 0

/-- Split a character list at the first decimal point. -/
def splitIntFrac : List Char → List Char → List Char × List Char
  | [], acc => (acc.reverse, [])
  | c :: rest, acc =>
    if c = '.' then (acc.reverse, rest) else splitIntFrac rest (c :: acc)

/-- The currency.js constructor currency(v) on a plain nonnegative decimal
string: the value scaled by 100 and rounded half-up to a cent integer. -/
def parseCents (s : String) : Int :=
  match splitIntFrac s.data [] with
  | (i, []) => (digitsToNat i : Int) * 100
  | (i, f) =>
    (digitsToNat i : Int) * 100 + jsRound (100 * (digitsToNat f : Int)) ((10 : Int) ^ f.length)

/-- The currency.js format with symbol "", separator "" and decimal ".",
as used on lines 68-69 of src/src/model/Swap.ts: the value printed with
exactly two decimal places. -/
def formatCents (v : Int) : String :=
  (if v < 0 then "-" else "") ++ toString (v.natAbs / 100) ++ "." ++
    (if v.natAbs % 100 < 10 then "0" else "") ++ toString (v.natAbs % 100)

/-- The side of a swap (export type Side in src/src/model/Swap.ts). -/
inductive Side
  | buy
  | sell
deriving DecidableEq, Repr

/-- One order-book level [price, volume, liquidated, amount] as delivered
by the exchange (type Order in src/services/Okex.service.ts), each
component parsed to a currency value by orders[i].map(v => new currency(v)). -/
structure Order where
  price : Int
  size : Int
  liquidated : Int
  amount : Int
deriving DecidableEq, Repr

/-- Build a level from its four strings, applying the currency parse the
code applies to each component. -/
def Order.ofStrings (price size liquidated amount : String) : Order :=
  ⟨parseCents price, parseCents size, parseCents liquidated, parseCents amount⟩

/-- The order-book snapshot (interface OrderBooks in
src/services/Okex.service.ts), asks and bids in provider order. -/
structure OrderBooks where
  asks : List Order
  bids : List Order
deriving DecidableEq, Repr

/-- The per-level capacity computed on line 49 of src/src/model/Swap.ts:
orderSize.multiply(amountOrders.subtract(liquidatedOrders)). -/
def orderVolume (o : Order) : Int := cMul o.size (o.amount - o.liquidated)

/-- The level loop and post-loop shortfall check of updatePriceOffer
(src/src/model/Swap.ts lines 42-66), with the swapPrice and iVolume
accumulators passed explicitly. -/
def priceWalk (swapVolume : Int) : List Order → Int → Int → Except String Int
  | [], swapPrice, iVolume =>
    if swapVolume - iVolume > 0 then Except.error "Not enough orders to fulfill the swap"
    else Except.ok swapPrice
  | o :: rest, swapPrice, iVolume =>
    let remainingVolume := swapVolume - iVolume
    let buyAllOrder := remainingVolume - orderVolume o > 0
    let boughtVolume := if buyAllOrder then orderVolume o else remainingVolume
    let swapPrice1 := swapPrice + cMul o.price (cDiv boughtVolume swapVolume)
    let iVolume1 := iVolume + boughtVolume
    if buyAllOrder then priceWalk swapVolume rest swapPrice1 iVolume1
    else if swapVolume - iVolume1 > 0 then Except.error "Not enough orders to fulfill the swap"
    else Except.ok swapPrice1

/-- The fee application of applySwapFee (src/src/model/Swap.ts lines
30-36).  feeCents is the configured percentage config swapper.fees.side
as a currency value (2 percent is 200 cents); the code builds
(100 + fee) or (100 - fee), divides by 100 and multiplies the provider
price by the result, each step in cent arithmetic. -/
def applySwapFee (side : Side) (feeCents : Int) (providerPrice : Int) : Int :=
  cMul providerPrice (cDiv (if side = Side.buy then 10000 + feeCents else 10000 - feeCents) 10000)

/-- The Swap entity of src/src/model/Swap.ts.  The optional fields stay
unset until updatePriceOffer succeeds; id is assigned by the repository. -/
structure Swap where
  id : Option Nat := none
  pair : String
  side : Side
  volume : String
  providerPrice : Option String := none
  price : Option String := none
  start : Option Nat := none
  expiration : Option Nat := none
deriving DecidableEq, Repr

/-- The method updatePriceOffer (src/src/model/Swap.ts lines 38-72).
cfgFee and cfgOfferTime stand for the configuration entries
swapper.fees.{side} and swapper.offerTime, and now for the Date
timestamp in milliseconds taken on line 70.  A thrown error leaves every
optional field of the swap unset, which the model expresses by returning
Except.error without producing a record. -/
def updatePriceOffer (cfgFee : Side → Int) (cfgOfferTime : Nat) (books : OrderBooks)
    (now : Nat) (s : Swap) : Except String Swap :=
  match priceWalk (parseCents s.volume)
      (if s.side = Side.buy then books.asks else books.bids) 0 0 with
  | Except.error e => Except.error e
  | Except.ok swapPrice =>
    Except.ok { s with
      providerPrice := some (formatCents swapPrice),
      price := some (formatCents (applySwapFee s.side (cfgFee s.side) swapPrice)),
      start := some now,
      expiration := some (now + cfgOfferTime) }

/-- Whether an Except value is a success. -/
def exceptOk {ε α : Type} : Except ε α → Bool
  | Except.ok _ => true
  | Except.error _ => false

/-- The createSwapOrder response body values (src/src/routes/Swapper.ts
lines 35-43). -/
inductive RespVal
  | num (n : Option Nat)
  | str (s : String)
  | optStr (s : Option String)
  | date (d : Option Nat)
deriving DecidableEq, Repr

/-- Render a side the way the route echoes it. -/
def sideString : Side → String
  | Side.buy => "buy"
  | Side.sell => "sell"

/-- The JSON object literal returned by createSwapOrder
(src/src/routes/Swapper.ts lines 35-43), as its ordered key-value pairs. -/
def createSwapOrderResponse (s : Swap) : List (String × RespVal) :=
  [("id", RespVal.num s.id), ("pair", RespVal.str s.pair),
   ("side", RespVal.str (sideString s.side)), ("volume", RespVal.str s.volume),
   ("price", RespVal.optStr s.price), ("start", RespVal.date s.start),
   ("expiration", RespVal.date s.expiration)]

/-- The error kinds of a confirmation attempt (spec section 7 taxonomy). -/
inductive ConfirmError
  | notFound (id : Nat)
  | notConfirmable (reason : String)
  | provider (msg : String)
deriving DecidableEq, Repr

/-- Modelled from the spec: the confirm operation.  The confirmSwapOrder
route and the gateway placeOrder call are exercised by the repository
tests but their code is not under src/.  Per the spec, confirming at or
after expiresAt fails with a NotConfirmableError citing expiration
regardless of the gateway state; strictly before expiration the call
delegates to the gateway, whose success confirms the swap and whose
failure is surfaced verbatim. -/
def confirmSwap (now : Nat) (s : Swap) (gateway : Except String String) :
    Except ConfirmError String :=
  match s.expiration with
  | none => Except.error (ConfirmError.notConfirmable "swap is not open")
  | some exp =>
    if exp ≤ now then Except.error (ConfirmError.notConfirmable "expired")
    else
      match gateway with
      | Except.error m => Except.error (ConfirmError.provider m)
      | Except.ok execId => Except.ok execId

/-- Modelled from the spec (section 4.1): the pricing walk in exact
rational arithmetic over levels (price, size, liquidated, multiplier),
with available = size * multiplier - liquidated, takeFromLevel the
minimum of available and remaining, the weighted price accumulated as
price * (takeFromLevel / requestedVolume) with no intermediate rounding,
and the under-liquidity check after the walk.  Refinement reference for
the cent-arithmetic priceWalk. -/
def exactWalk (requestedVolume : ℚ) :
    List (ℚ × ℚ × ℚ × ℚ) → ℚ → ℚ → Except String ℚ
  | [], weightedPrice, filled =>
    if filled < requestedVolume then Except.error "UnderLiquidity"
    else Except.ok weightedPrice
  | (price, size, liquidated, multiplier) :: rest, weightedPrice, filled =>
    let available := size * multiplier - liquidated
    let remaining := requestedVolume - filled
    let takeFromLevel := min available remaining
    let weightedPrice1 := weightedPrice + price * (takeFromLevel / requestedVolume)
    let filled1 := filled + takeFromLevel
    if takeFromLevel < available then
      if filled1 < requestedVolume then Except.error "UnderLiquidity"
      else Except.ok weightedPrice1
    else exactWalk requestedVolume rest weightedPrice1 filled1

/-- The capacity formula the claims state, size * multiplier - liquidated,
in exact decimals (the cent fields scaled back to currency units).
Refinement reference for orderVolume. -/
def availableSpec (o : Order) : ℚ :=
  (o.size : ℚ) / 100 * ((o.amount : ℚ) / 100) - (o.liquidated : ℚ) / 100

/-- The fee formula the claims state, providerPrice * (100 ± feePercent) / 100,
in exact decimals.  Refinement reference for applySwapFee. -/
def applyFeeSpec (side : Side) (feePercent providerPrice : ℚ) : ℚ :=
  providerPrice * (if side = Side.buy then 100 + feePercent else 100 - feePercent) / 100

/-- The (price, boughtVolume) pairs of the levels the loop of
updatePriceOffer actually consumes, mirroring the control flow of
priceWalk. -/
def walkTakes (swapVolume : Int) : List Order → Int → List (Int × Int)
  | [], _ => []
  | o :: rest, iVolume =>
    let remainingVolume := swapVolume - iVolume
    let buyAllOrder := remainingVolume - orderVolume o > 0
    let boughtVolume := if buyAllOrder then orderVolume o else remainingVolume
    if buyAllOrder then (o.price, boughtVolume) :: walkTakes swapVolume rest (iVolume + boughtVolume)
    else [(o.price, boughtVolume)]

/-- Total volume taken across consumed levels. -/
def takesSum (l : List (Int × Int)) : Int := (l.map Prod.snd).sum

/-- Exact (unrounded) price-times-volume total across consumed levels. -/
def weightedSum (l : List (Int × Int)) : Int :=
  (l.map fun pb => pb.1 * pb.2).sum

/-- The cent-rounded price accumulation the code performs across the
consumed levels: each level contributes
round(price * round(100 * bought / swapVolume) / 100). -/
def roundedAccum (swapVolume : Int) (l : List (Int × Int)) : Int :=
  (l.map fun pb => cMul pb.1 (cDiv pb.2 swapVolume)).sum

/-! Helper lemmas about the walk and the cent rounding. -/

/-- Unfolding lemma for one loop iteration of priceWalk, with the
boughtVolume conditional resolved in each branch. -/
theorem priceWalk_cons (V : Int) (o : Order) (rest : List Order) (p0 iv : Int) :
    priceWalk V (o :: rest) p0 iv =
      if V - iv - orderVolume o > 0 then
        priceWalk V rest (p0 + cMul o.price (cDiv (orderVolume o) V)) (iv + orderVolume o)
      else Except.ok (p0 + cMul o.price (cDiv (V - iv) V)) := by
  by_cases hb : V - iv - orderVolume o > 0
  · simp [priceWalk, hb]
  · simp only [priceWalk, hb, if_false]
    rw [if_neg (by omega)]

/-- Unfolding lemma for one step of walkTakes, matching priceWalk_cons. -/
theorem walkTakes_cons (V : Int) (o : Order) (rest : List Order) (iv : Int) :
    walkTakes V (o :: rest) iv =
      if V - iv - orderVolume o > 0 then
        (o.price, orderVolume o) :: walkTakes V rest (iv + orderVolume o)
      else [(o.price, V - iv)] := by
  by_cases hb : V - iv - orderVolume o > 0
  · simp [walkTakes, hb]
  · simp [walkTakes, hb]

/-- When the walk succeeds it has consumed exactly the missing volume,
and the returned price is the starting accumulator plus the cent-rounded
per-level contributions of the consumed levels. -/
theorem priceWalk_ok_spec (V : Int) (os : List Order) :
    ∀ p0 iv p, iv ≤ V → priceWalk V os p0 iv = Except.ok p →
      takesSum (walkTakes V os iv) = V - iv ∧
      p = p0 + roundedAccum V (walkTakes V os iv) := by
  induction os with
  | nil =>
    intro p0 iv p hiv hok
    simp only [priceWalk] at hok
    split at hok
    · exact absurd hok (by simp)
    · rename_i hneg
      simp only [Except.ok.injEq] at hok
      subst hok
      constructor
      · simp only [walkTakes, takesSum, List.map_nil, List.sum_nil]
        omega
      · simp [walkTakes, roundedAccum]
  | cons o rest ih =>
    intro p0 iv p hiv hok
    rw [priceWalk_cons] at hok
    rw [walkTakes_cons]
    by_cases hb : V - iv - orderVolume o > 0
    · rw [if_pos hb] at hok
      rw [if_pos hb]
      obtain ⟨h1, h2⟩ := ih _ _ _ (by omega) hok
      constructor
      · simp only [takesSum, List.map_cons, List.sum_cons] at h1 ⊢
        omega
      · simp only [roundedAccum, List.map_cons, List.sum_cons]
        rw [h2]
        simp only [roundedAccum]
        ring
    · rw [if_neg hb] at hok
      rw [if_neg hb]
      simp only [Except.ok.injEq] at hok
      subst hok
      constructor
      · simp [takesSum]
      · simp [roundedAccum]

/-- Every volume taken from a consumed level is nonnegative, provided the
computed level capacities are nonnegative and the walk starts within the
requested volume. -/
theorem walkTakes_nonneg (V : Int) (os : List Order) :
    ∀ iv, iv ≤ V → (∀ o ∈ os, 0 ≤ orderVolume o) →
      ∀ pb ∈ walkTakes V os iv, 0 ≤ pb.2 := by
  induction os with
  | nil =>
    intro iv _ _ pb hpb
    simp [walkTakes] at hpb
  | cons o rest ih =>
    intro iv hiv hcap pb hpb
    rw [walkTakes_cons] at hpb
    by_cases hb : V - iv - orderVolume o > 0
    · rw [if_pos hb] at hpb
      rcases List.mem_cons.mp hpb with h | h
      · subst h
        exact hcap o (List.mem_cons_self o rest)
      · exact ih (iv + orderVolume o) (by omega)
          (fun o2 ho2 => hcap o2 (List.mem_cons_of_mem _ ho2)) pb h
    · rw [if_neg hb] at hpb
      rcases List.mem_cons.mp hpb with h | h
      · subst h
        simp only
        omega
      · simp at h

/-- Convexity bound: the exact price-times-volume total over consumed
levels lies between lo and hi times the total taken volume whenever lo
and hi bound every consumed price and the taken volumes are nonnegative. -/
theorem weightedSum_bounds (lo hi : Int) (l : List (Int × Int))
    (h : ∀ pb ∈ l, (lo ≤ pb.1 ∧ pb.1 ≤ hi) ∧ 0 ≤ pb.2) :
    lo * takesSum l ≤ weightedSum l ∧ weightedSum l ≤ hi * takesSum l := by
  induction l with
  | nil => simp [takesSum, weightedSum]
  | cons pb t ih =>
    obtain ⟨⟨hlo, hhi⟩, hb⟩ := h pb (List.mem_cons_self pb t)
    obtain ⟨ih1, ih2⟩ := ih fun q hq => h q (List.mem_cons_of_mem _ hq)
    simp only [takesSum, weightedSum, List.map_cons, List.sum_cons] at ih1 ih2 ⊢
    constructor
    · have h1 : lo * pb.2 ≤ pb.1 * pb.2 := mul_le_mul_of_nonneg_right hlo hb
      have e : lo * (pb.2 + (t.map Prod.snd).sum) =
          lo * pb.2 + lo * (t.map Prod.snd).sum := by ring
      linarith
    · have h2 : pb.1 * pb.2 ≤ hi * pb.2 := mul_le_mul_of_nonneg_right hhi hb
      have e : hi * (pb.2 + (t.map Prod.snd).sum) =
          hi * pb.2 + hi * (t.map Prod.snd).sum := by ring
      linarith

/-- When every computed level capacity is nonnegative and even their total
falls short of the requested volume, the walk exhausts the book and ends
in the under-liquidity error. -/
theorem priceWalk_under (V : Int) (os : List Order) :
    ∀ p0 iv, (∀ o ∈ os, 0 ≤ orderVolume o) →
      iv + (os.map orderVolume).sum < V →
      priceWalk V os p0 iv = Except.error "Not enough orders to fulfill the swap" := by
  induction os with
  | nil =>
    intro p0 iv _ hsum
    simp only [List.map_nil, List.sum_nil] at hsum
    simp only [priceWalk]
    rw [if_pos (by omega)]
  | cons o rest ih =>
    intro p0 iv hcap hsum
    have hrest : 0 ≤ (rest.map orderVolume).sum := by
      apply List.sum_nonneg
      intro x hx
      obtain ⟨o2, ho2, rfl⟩ := List.mem_map.mp hx
      exact hcap o2 (List.mem_cons_of_mem _ ho2)
    simp only [List.map_cons, List.sum_cons] at hsum
    have hb : V - iv - orderVolume o > 0 := by omega
    rw [priceWalk_cons, if_pos hb]
    exact ih _ _ (fun o2 ho2 => hcap o2 (List.mem_cons_of_mem _ ho2)) (by omega)

/-- The rounding performed by jsRound is half-up rounding of num/den: the
result misses the exact ratio by at most half a unit of den. -/
theorem jsRound_half (n d : Int) (hd : 0 < d) :
    -d ≤ 2 * (n - d * jsRound n d) ∧ 2 * (n - d * jsRound n d) < d := by
  have hne : 2 * d ≠ 0 := by omega
  have hmod : 0 ≤ (2 * n + d) % (2 * d) := Int.emod_nonneg _ hne
  have hmod2 : (2 * n + d) % (2 * d) < 2 * d := Int.emod_lt_of_pos _ (by omega)
  have heq : 2 * d * ((2 * n + d) / (2 * d)) + (2 * n + d) % (2 * d) = 2 * n + d :=
    Int.ediv_add_emod _ _
  unfold jsRound
  constructor <;> nlinarith [heq, hmod, hmod2]

/-- The buy fee factor (100 + fee).divide(100) for a whole-percent fee k:
cent arithmetic yields exactly 100 + k cents, the factor 1 + k/100. -/
theorem cDiv_feeFactor_buy (k : Int) : cDiv (10000 + 100 * k) 10000 = 100 + k := by
  unfold cDiv jsRound
  omega

/-- The sell fee factor (100 - fee).divide(100) for a whole-percent fee k. -/
theorem cDiv_feeFactor_sell (k : Int) : cDiv (10000 - 100 * k) 10000 = 100 - k := by
  unfold cDiv jsRound
  omega

/-- Rounding an exact multiple of 100 back to cents is exact. -/
theorem jsRound_mul_100 (q : Int) : jsRound (100 * q) 100 = q := by
  unfold jsRound
  omega

/-! Claim theorems. -/

/-- C1 counterexample: on the level ("10","2","1","1") (price 10, size 2,
liquidated 1, multiplier 1) the capacity size * multiplier - liquidated
claimed by the spec is 1, enough to cover a requested volume of 1, yet
the engine computes orderVolume 0 (it evaluates
size * (multiplier - liquidated)) and fails with the under-liquidity
error. -/
theorem c1_capacity_formula_counterexample :
    availableSpec (Order.ofStrings "10" "2" "1" "1") = 1 ∧
    parseCents "1" = 100 ∧
    orderVolume (Order.ofStrings "10" "2" "1" "1") = 0 ∧
    updatePriceOffer (fun _ => 200) 30000 ⟨[Order.ofStrings "10" "2" "1" "1"], []⟩ 0
      { pair := "BTC-USDT", side := Side.buy, volume := "1" } =
      Except.error "Not enough orders to fulfill the swap" := by
  refine ⟨?_, rfl, rfl, rfl⟩
  have h1 : (Order.ofStrings "10" "2" "1" "1").size = 200 := rfl
  have h2 : (Order.ofStrings "10" "2" "1" "1").amount = 100 := rfl
  have h3 : (Order.ofStrings "10" "2" "1" "1").liquidated = 100 := rfl
  unfold availableSpec
  rw [h1, h2, h3]
  norm_num

/-- C1 (amended): updatePriceOffer computes a level's consumable capacity
as size * (multiplier - liquidated) in cent arithmetic (orderVolume), the
liquidated count being subtracted from the multiplier before scaling by
size, and compares that capacity against the remaining requested volume:
on a one-level book a positive requested volume is filled exactly when it
is at most orderVolume. -/
theorem priceWalk_capacity_single_level (o : Order) (V : Int) (_hV : 0 < V) :
    exceptOk (priceWalk V [o] 0 0) = true ↔ V ≤ orderVolume o := by
  rw [priceWalk_cons]
  by_cases hb : V - 0 - orderVolume o > 0
  · rw [if_pos hb]
    have herr : priceWalk V [] (0 + cMul o.price (cDiv (orderVolume o) V)) (0 + orderVolume o) =
        Except.error "Not enough orders to fulfill the swap" := by
      simp only [priceWalk]
      rw [if_pos (by omega)]
    rw [herr]
    exact iff_of_false (by simp [exceptOk]) (by omega)
  · rw [if_neg hb]
    exact iff_of_true (by simp [exceptOk]) (by omega)

/-- Witness for priceWalk_capacity_single_level at the Scenario A level
and requested volume 1000. -/
theorem priceWalk_capacity_single_level_witness :
    exceptOk (priceWalk 100000 [Order.ofStrings "36713.5" "15169" "0" "1"] 0 0) = true :=
  (priceWalk_capacity_single_level (Order.ofStrings "36713.5" "15169" "0" "1") 100000
    (by decide)).mpr (by decide)

/-- C2 counterexample: the asks ("10","5","0","1") and ("10","3","2","1")
have computed capacities 5.00 and -3.00, so the cumulative available
depth is 2.00, strictly less than the requested volume 3; yet the walk
fills the request entirely from the first level and a quote is produced. -/
theorem c2_cumulative_depth_counterexample :
    ([Order.ofStrings "10" "5" "0" "1", Order.ofStrings "10" "3" "2" "1"].map orderVolume).sum
      = 200 ∧
    parseCents "3" = 300 ∧
    updatePriceOffer (fun _ => 200) 30000
      ⟨[Order.ofStrings "10" "5" "0" "1", Order.ofStrings "10" "3" "2" "1"], []⟩ 0
      { pair := "BTC-USDT", side := Side.buy, volume := "3" } =
      Except.ok { pair := "BTC-USDT", side := Side.buy, volume := "3",
                  providerPrice := some "10.00", price := some "10.20",
                  start := some 0, expiration := some 30000 } :=
  ⟨rfl, rfl, rfl⟩

/-- C2 (amended): for every snapshot whose levels on the selected side
all have nonnegative computed capacity and whose cumulative capacity is
strictly less than the requested volume, updatePriceOffer fails with the
under-liquidity error after exhausting all levels; no quote is produced
and the partially accumulated price is discarded, so providerPrice,
price, start and expiration remain unset. -/
theorem updatePriceOffer_under_liquidity (cfgFee : Side → Int) (cfgOfferTime : Nat)
    (books : OrderBooks) (now : Nat) (s : Swap)
    (hcap : ∀ o ∈ (if s.side = Side.buy then books.asks else books.bids), 0 ≤ orderVolume o)
    (hsum : ((if s.side = Side.buy then books.asks else books.bids).map orderVolume).sum <
      parseCents s.volume) :
    updatePriceOffer cfgFee cfgOfferTime books now s =
      Except.error "Not enough orders to fulfill the swap" := by
  unfold updatePriceOffer
  rw [priceWalk_under _ _ 0 0 hcap (by omega)]

/-- Witness for updatePriceOffer_under_liquidity: one ask of capacity 1
cannot fill a requested volume of 3. -/
theorem updatePriceOffer_under_liquidity_witness :
    updatePriceOffer (fun _ => 200) 30000 ⟨[Order.ofStrings "10" "1" "0" "1"], []⟩ 0
      { pair := "BTC-USDT", side := Side.buy, volume := "3" } =
      Except.error "Not enough orders to fulfill the swap" :=
  updatePriceOffer_under_liquidity (fun _ => 200) 30000 ⟨[Order.ofStrings "10" "1" "0" "1"], []⟩ 0
    { pair := "BTC-USDT", side := Side.buy, volume := "3" } (by decide) (by decide)

/-- C3 counterexample: the providerPrice stored for Scenario A is the
two-decimal string "36713.50" produced by currency.js format, not the
claimed "36713.5". -/
theorem c3_provider_price_counterexample :
    Except.map Swap.providerPrice (updatePriceOffer (fun _ => 200) 30000
      ⟨[Order.ofStrings "36713.5" "15169" "0" "1"], [Order.ofStrings "36687" "17171" "0" "1"]⟩ 0
      { pair := "BTC-USDT", side := Side.buy, volume := "1000" }) =
      Except.ok (some "36713.50") ∧
    (some "36713.50" : Option String) ≠ some "36713.5" :=
  ⟨rfl, by decide⟩

/-- C3 (amended): on the Scenario A book, asks [("36713.5","15169","0","1")]
with requested volume "1000" on the buy side, pricing succeeds from the
single level, the stored providerPrice is "36713.50" (the two-decimal
rendering of the claimed value 36713.5) and the 2 percent buy fee yields
the offered price "37447.77" as claimed. -/
theorem scenarioA_quote_prices :
    updatePriceOffer (fun _ => 200) 30000
      ⟨[Order.ofStrings "36713.5" "15169" "0" "1"], [Order.ofStrings "36687" "17171" "0" "1"]⟩ 0
      { pair := "BTC-USDT", side := Side.buy, volume := "1000" } =
      Except.ok { pair := "BTC-USDT", side := Side.buy, volume := "1000",
                  providerPrice := some "36713.50", price := some "37447.77",
                  start := some 0, expiration := some 30000 } := rfl

/-- C4 counterexample: in Scenario A exactly one level is consumed; the
walk returns 36713.50 which equals both the best and the worst consumed
price, so the returned volume-weighted price is not strictly between
them. -/
theorem c4_strict_betweenness_counterexample :
    priceWalk 100000 [Order.ofStrings "36713.5" "15169" "0" "1"] 0 0 = Except.ok 3671350 ∧
    walkTakes 100000 [Order.ofStrings "36713.5" "15169" "0" "1"] 0 = [(3671350, 100000)] ∧
    ¬ ((3671350 : Int) < 3671350) :=
  ⟨rfl, rfl, by decide⟩

/-- C4 (amended): when the walk succeeds on a positive requested volume
over levels of nonnegative computed capacity, the per-level taken volumes
sum exactly to the requested volume, the returned price is the
cent-rounded weighted accumulation over those takes, and the exact
weighted total lies between lo * V and hi * V for any bounds lo, hi on
the consumed prices — inclusive bounds, since strictness fails whenever a
single level (or a single price) is consumed. -/
theorem priceWalk_vwap_claim (os : List Order) (V lo hi p : Int) (hV : 0 < V)
    (hcap : ∀ o ∈ os, 0 ≤ orderVolume o)
    (hok : priceWalk V os 0 0 = Except.ok p)
    (hb : ∀ pb ∈ walkTakes V os 0, lo ≤ pb.1 ∧ pb.1 ≤ hi) :
    takesSum (walkTakes V os 0) = V ∧
    p = roundedAccum V (walkTakes V os 0) ∧
    lo * V ≤ weightedSum (walkTakes V os 0) ∧
    weightedSum (walkTakes V os 0) ≤ hi * V := by
  obtain ⟨h1, h2⟩ := priceWalk_ok_spec V os 0 0 p (by omega) hok
  have hsum : takesSum (walkTakes V os 0) = V := by omega
  have hnn := walkTakes_nonneg V os 0 (by omega) hcap
  obtain ⟨hb1, hb2⟩ := weightedSum_bounds lo hi (walkTakes V os 0)
    fun pb hpb => ⟨hb pb hpb, hnn pb hpb⟩
  rw [hsum] at hb1 hb2
  exact ⟨hsum, by omega, hb1, hb2⟩

/-- Witness for priceWalk_vwap_claim: two levels of prices 100 and 200,
requested volume 3, taken volumes 1 and 2, bounds 100 and 200. -/
theorem priceWalk_vwap_claim_witness :
    takesSum (walkTakes 300
      [Order.ofStrings "100" "1" "0" "1", Order.ofStrings "200" "5" "0" "1"] 0) = 300 ∧
    (16700 : Int) = roundedAccum 300 (walkTakes 300
      [Order.ofStrings "100" "1" "0" "1", Order.ofStrings "200" "5" "0" "1"] 0) ∧
    10000 * 300 ≤ weightedSum (walkTakes 300
      [Order.ofStrings "100" "1" "0" "1", Order.ofStrings "200" "5" "0" "1"] 0) ∧
    weightedSum (walkTakes 300
      [Order.ofStrings "100" "1" "0" "1", Order.ofStrings "200" "5" "0" "1"] 0) ≤ 20000 * 300 :=
  priceWalk_vwap_claim [Order.ofStrings "100" "1" "0" "1", Order.ofStrings "200" "5" "0" "1"]
    300 10000 20000 16700 (by decide) (by decide) rfl (by decide)

/-- C5 counterexample: on the book with asks ("100","1","0","1") and
("200","5","0","1") and requested volume "3", exact decimal arithmetic
(exactWalk, rounding only at output) yields 500/3, which rounds to 166.67
cents at output, while the engine's step-by-step cent arithmetic returns
167.00: the per-level ratio was rounded mid-computation. -/
theorem c5_exact_arithmetic_counterexample :
    priceWalk 300 [Order.ofStrings "100" "1" "0" "1", Order.ofStrings "200" "5" "0" "1"] 0 0 =
      Except.ok 16700 ∧
    exactWalk 3 [(100, 1, 0, 1), (200, 5, 0, 1)] 0 0 = Except.ok (500 / 3) ∧
    jsRound 50000 3 = 16667 ∧
    (16700 : Int) ≠ 16667 := by
  refine ⟨rfl, ?_, rfl, by decide⟩
  norm_num [exactWalk]

/-- C5 (amended): the pricing walk's arithmetic is fixed-point cent
arithmetic, not exact decimal arithmetic: each divide (cDiv, in
particular the per-level ratio boughtVolume / swapVolume) and each
multiply (cMul, the ratio times the level price) rounds its result
half-up to the nearest cent before the next step, deviating from the
exact quotient or product by up to half a cent each time. -/
theorem pricing_rounds_each_step (a b : Int) (hb : 0 < b) :
    (-b ≤ 2 * (100 * a - b * cDiv a b) ∧ 2 * (100 * a - b * cDiv a b) < b) ∧
    (-100 ≤ 2 * (a * b - 100 * cMul a b) ∧ 2 * (a * b - 100 * cMul a b) < 100) :=
  ⟨jsRound_half (100 * a) b hb, jsRound_half (a * b) 100 (by norm_num)⟩

/-- Witness for pricing_rounds_each_step at a = 1, b = 300 (the rounded
ratio 1/300 of a cent-level walk). -/
theorem pricing_rounds_each_step_witness :
    ((-300 : Int) ≤ 2 * (100 * 1 - 300 * cDiv 1 300) ∧
      2 * (100 * 1 - 300 * cDiv 1 300) < 300) ∧
    ((-100 : Int) ≤ 2 * (1 * 300 - 100 * cMul 1 300) ∧
      2 * (1 * 300 - 100 * cMul 1 300) < 100) :=
  pricing_rounds_each_step 1 300 (by decide)

/-- C6 counterexample: for providerPrice 0.01 and the configured 2
percent buy fee, the claimed exact formula gives 0.01 * 1.02 = 0.0102,
but applySwapFee returns 0.01 (1 cent): the product is rounded to cents,
so the policy is not the exact decimal computation
providerPrice * (100 + feePercent) / 100. -/
theorem c6_fee_formula_counterexample :
    applySwapFee Side.buy 200 1 = 1 ∧
    applyFeeSpec Side.buy 2 ((1 : ℚ) / 100) = 102 / 10000 ∧
    ((1 : ℚ) / 100) ≠ 102 / 10000 := by
  refine ⟨rfl, ?_, by norm_num⟩
  norm_num [applyFeeSpec]

/-- C6 (amended): applySwapFee multiplies the provider price by the
cent-rounded factor (100 ± fee) / 100, as a pure computation on cent
values.  For a whole-percent fee (100 * k cents) the factor is exactly
100 ± k cents and the offered price is the half-up cent rounding of
providerPrice * (100 ± k) / 100; whenever that product is a whole
multiple of 100 the rounding is exact and the claimed formula
applyFeeSpec holds exactly. -/
theorem applySwapFee_whole_percent (pp k q r : Int) :
    applySwapFee Side.buy (100 * k) pp = jsRound (pp * (100 + k)) 100 ∧
    applySwapFee Side.sell (100 * k) pp = jsRound (pp * (100 - k)) 100 ∧
    (pp * (100 + k) = 100 * q →
      (applySwapFee Side.buy (100 * k) pp : ℚ) / 100 =
        applyFeeSpec Side.buy (k : ℚ) ((pp : ℚ) / 100)) ∧
    (pp * (100 - k) = 100 * r →
      (applySwapFee Side.sell (100 * k) pp : ℚ) / 100 =
        applyFeeSpec Side.sell (k : ℚ) ((pp : ℚ) / 100)) := by
  have hbuy : applySwapFee Side.buy (100 * k) pp = jsRound (pp * (100 + k)) 100 := by
    show cMul pp (cDiv (if Side.buy = Side.buy then 10000 + 100 * k else 10000 - 100 * k) 10000) = _
    rw [if_pos rfl, cDiv_feeFactor_buy]
    rfl
  have hsell : applySwapFee Side.sell (100 * k) pp = jsRound (pp * (100 - k)) 100 := by
    show cMul pp (cDiv (if Side.sell = Side.buy then 10000 + 100 * k else 10000 - 100 * k) 10000) = _
    rw [if_neg (by decide), cDiv_feeFactor_sell]
    rfl
  refine ⟨hbuy, hsell, ?_, ?_⟩
  · intro hq
    rw [hbuy, hq, jsRound_mul_100]
    show _ = (pp : ℚ) / 100 * (if Side.buy = Side.buy then 100 + (k : ℚ) else 100 - (k : ℚ)) / 100
    rw [if_pos rfl]
    have hqQ : (pp : ℚ) * (100 + (k : ℚ)) = 100 * (q : ℚ) := by exact_mod_cast hq
    field_simp
    linarith [hqQ]
  · intro hr
    rw [hsell, hr, jsRound_mul_100]
    show _ = (pp : ℚ) / 100 * (if Side.sell = Side.buy then 100 + (k : ℚ) else 100 - (k : ℚ)) / 100
    rw [if_neg (by decide)]
    have hrQ : (pp : ℚ) * (100 - (k : ℚ)) = 100 * (r : ℚ) := by exact_mod_cast hr
    field_simp
    linarith [hrQ]

/-- Witness for applySwapFee_whole_percent at the Scenario A provider
price 36713.50 and fee 2 percent (both side formulas, with the buy
product 3671350 * 102 = 100 * 3744777 a whole number of cents). -/
theorem applySwapFee_whole_percent_witness :
    applySwapFee Side.buy (100 * 2) 3671350 = jsRound (3671350 * (100 + 2)) 100 ∧
    (applySwapFee Side.buy (100 * 2) 3671350 : ℚ) / 100 =
      applyFeeSpec Side.buy ((2 : Int) : ℚ) (((3671350 : Int) : ℚ) / 100) := by
  exact ⟨(applySwapFee_whole_percent 3671350 2 3744777 3597923).1,
    (applySwapFee_whole_percent 3671350 2 3744777 3597923).2.2.1 (by decide)⟩

/-- C7 (confirmed): whenever pricing succeeds, the quote's providerPrice,
offered price, creation timestamp and expiration timestamp are set
together on the produced swap, and the expiration equals exactly the
creation timestamp plus the configured validity window. -/
theorem updatePriceOffer_atomic_fields (cfgFee : Side → Int) (cfgOfferTime : Nat)
    (books : OrderBooks) (now : Nat) (s s2 : Swap)
    (hok : updatePriceOffer cfgFee cfgOfferTime books now s = Except.ok s2) :
    s2.providerPrice.isSome = true ∧ s2.price.isSome = true ∧
    s2.start = some now ∧ s2.expiration = some (now + cfgOfferTime) := by
  unfold updatePriceOffer at hok
  split at hok
  · exact absurd hok (by simp)
  · simp only [Except.ok.injEq] at hok
    subst hok
    simp

/-- Witness for updatePriceOffer_atomic_fields at the Scenario A book and
timestamp 0 with a 30000 ms validity window. -/
theorem updatePriceOffer_atomic_fields_witness :
    (some "36713.50" : Option String).isSome = true ∧
    (some "37447.77" : Option String).isSome = true ∧
    (some 0 : Option Nat) = some 0 ∧
    (some 30000 : Option Nat) = some (0 + 30000) :=
  updatePriceOffer_atomic_fields (fun _ => 200) 30000
    ⟨[Order.ofStrings "36713.5" "15169" "0" "1"], [Order.ofStrings "36687" "17171" "0" "1"]⟩ 0
    { pair := "BTC-USDT", side := Side.buy, volume := "1000" }
    { pair := "BTC-USDT", side := Side.buy, volume := "1000",
      providerPrice := some "36713.50", price := some "37447.77",
      start := some 0, expiration := some 30000 } rfl

/-- C8 (confirmed, modelled from the spec; the confirmSwapOrder route and
gateway execution code are not under src/): a confirmation attempt
observed at or after the quote's expiration fails with the
NotConfirmableError citing expiration regardless of the gateway result
and nothing is executed, while a confirmation strictly before expiration
succeeds whenever the gateway succeeds. -/
theorem confirmSwap_expiry_policy (now exp : Nat) (s : Swap) (gw : Except String String)
    (eid : String) (hexp : s.expiration = some exp) :
    (exp ≤ now → confirmSwap now s gw = Except.error (ConfirmError.notConfirmable "expired")) ∧
    (now < exp → gw = Except.ok eid → confirmSwap now s gw = Except.ok eid) := by
  simp only [confirmSwap, hexp]
  constructor
  · intro h
    rw [if_pos h]
  · intro h hgw
    rw [if_neg (by omega), hgw]

/-- Witness for confirmSwap_expiry_policy: a quote expiring at 30000 is
rejected as expired at 40000 even though the gateway would succeed, and
is confirmed at 10000. -/
theorem confirmSwap_expiry_policy_witness :
    confirmSwap 40000
      { pair := "BTC-USDT", side := Side.sell, volume := "1000", expiration := some 30000 }
      (Except.ok "312269865356374016") =
      Except.error (ConfirmError.notConfirmable "expired") ∧
    confirmSwap 10000
      { pair := "BTC-USDT", side := Side.sell, volume := "1000", expiration := some 30000 }
      (Except.ok "312269865356374016") =
      Except.ok "312269865356374016" :=
  ⟨(confirmSwap_expiry_policy 40000 30000
      { pair := "BTC-USDT", side := Side.sell, volume := "1000", expiration := some 30000 }
      (Except.ok "312269865356374016") "312269865356374016" rfl).1 (by decide),
   (confirmSwap_expiry_policy 10000 30000
      { pair := "BTC-USDT", side := Side.sell, volume := "1000", expiration := some 30000 }
      (Except.ok "312269865356374016") "312269865356374016" rfl).2 (by decide) rfl⟩

/-- C9 (confirmed): the createSwapOrder response consists of exactly the
public fields id, pair, side, volume, price, start and expiration, in
that order, and is independent of the swap's providerPrice: the internal
provider price is never exposed in the response. -/
theorem createSwapOrderResponse_public_fields (s : Swap) :
    (createSwapOrderResponse s).map Prod.fst =
      ["id", "pair", "side", "volume", "price", "start", "expiration"] ∧
    ∀ pp : Option String,
      createSwapOrderResponse { s with providerPrice := pp } = createSwapOrderResponse s :=
  ⟨rfl, fun _ => rfl⟩

/-- C10 counterexample: with requested volume "0" and the single ask
("10","5","2","1"), whose computed capacity is -5.00, the loop takes the
negative capacity, leaves the accumulated volume negative, and
updatePriceOffer does raise the under-liquidity error: "never raises the
under-liquidity error for any order book" fails. -/
theorem c10_zero_volume_counterexample :
    parseCents "0" = 0 ∧
    orderVolume (Order.ofStrings "10" "5" "2" "1") = -500 ∧
    updatePriceOffer (fun _ => 200) 30000 ⟨[Order.ofStrings "10" "5" "2" "1"], []⟩ 0
      { pair := "BTC-USDT", side := Side.buy, volume := "0" } =
      Except.error "Not enough orders to fulfill the swap" :=
  ⟨rfl, rfl, rfl⟩

/-- C10 (amended): the engine performs no positivity validation of the
requested volume.  For requested volume "0" over levels of nonnegative
computed capacity the shortfall check never fires and pricing succeeds
(the walk divides the taken volume by the zero requested volume; the
model's division-by-zero convention yields 0 where JS produces NaN),
while a leading negative-capacity level can make the shortfall check fire
even at volume 0. -/
theorem updatePriceOffer_zero_volume (cfgFee : Side → Int) (cfgOfferTime : Nat)
    (books : OrderBooks) (now : Nat) (s : Swap)
    (hvol : parseCents s.volume = 0)
    (hcap : ∀ o ∈ (if s.side = Side.buy then books.asks else books.bids), 0 ≤ orderVolume o) :
    exceptOk (updatePriceOffer cfgFee cfgOfferTime books now s) = true := by
  unfold updatePriceOffer
  rw [hvol]
  cases horders : (if s.side = Side.buy then books.asks else books.bids) with
  | nil => simp [priceWalk, exceptOk]
  | cons o rest =>
    have hcapo : 0 ≤ orderVolume o := hcap o (by rw [horders]; exact List.mem_cons_self o rest)
    rw [priceWalk_cons, if_neg (by omega)]
    simp [exceptOk]

/-- Witness for updatePriceOffer_zero_volume at volume "0" over one ask
of capacity 5.00. -/
theorem updatePriceOffer_zero_volume_witness :
    exceptOk (updatePriceOffer (fun _ => 200) 30000 ⟨[Order.ofStrings "10" "5" "0" "1"], []⟩ 0
      { pair := "BTC-USDT", side := Side.buy, volume := "0" }) = true :=
  updatePriceOffer_zero_volume (fun _ => 200) 30000 ⟨[Order.ofStrings "10" "5" "0" "1"], []⟩ 0
    { pair := "BTC-USDT", side := Side.buy, volume := "0" } rfl (by decide)

end Swapper
